import Mathlib

/- Verification of the chemical-engineering unit converter
   (src/unit-conversion/che_unit_converter/che_unit_converter.py,
   class ChemEngUnitConverter).

   Modelling choices:
   * Python floats are idealised as exact rationals (ℚ); all factor
     arithmetic in the converter is multiplication, division and powers,
     so every identity proved here is the exact-arithmetic content of the
     floating-point code.
   * Python dicts keyed by strings are modelled as insertion-ordered
     association lists with last-write-wins lookup (dictGet), exactly the
     observable behaviour of dict insertion and lookup.
   * A dimension dict {axis: exponent} with absent axes meaning exponent 0
     is modelled as a total record over the seven base axes (Dim); all
     operations of the source (combine, subtract, scale, compatibility
     over the union of present axes) are pointwise on that record.
   * Python string operations are re-implemented over the character list
     String.data with structural recursion so that results are computable
     inside the logic; each helper mirrors the exact str method used.
   * Raised ValueError exceptions are modelled by Except with an error
     type carrying the same diagnostic payload as the message text. -/

set_option maxRecDepth 20000

/-- The seven base dimensions L, M, T, Θ (temperature), N, I, J as integer
exponents; an axis absent from a Python dimension dict is exponent 0 here
(field Th is the temperature axis Θ, Jl the luminous-intensity axis J). -/
structure Dim where
  L : Int := 0
  M : Int := 0
  T : Int := 0
  Th : Int := 0
  N : Int := 0
  I : Int := 0
  Jl : Int := 0
deriving DecidableEq

/-- Pointwise sum of exponents: multiplying two quantities (the dict merge
`subdims[dim] = subdims.get(dim, 0) + exp` of the source). -/
def dAdd (a b : Dim) : Dim :=
  ⟨a.L + b.L, a.M + b.M, a.T + b.T, a.Th + b.Th, a.N + b.N, a.I + b.I, a.Jl + b.Jl⟩

/-- Pointwise difference: division (`final_dims[dim] = final_dims.get(dim, 0) - exp`). -/
def dSub (a b : Dim) : Dim :=
  ⟨a.L - b.L, a.M - b.M, a.T - b.T, a.Th - b.Th, a.N - b.N, a.I - b.I, a.Jl - b.Jl⟩

/-- Pointwise scaling by an integer power (`{dim: exp * power}`). -/
def dScale (a : Dim) (n : Int) : Dim :=
  ⟨a.L * n, a.M * n, a.T * n, a.Th * n, a.N * n, a.I * n, a.Jl * n⟩

/-- Errors raised by the converter, with the payload named in the ValueError
message of the source. -/
inductive ConvErr where
  | unknownUnit (tok : String)
  | incompatibleDimensions (fromUnit toUnit : String) (fromDims toDims : Dim)
  | unknownTemperatureUnit (u : String)
deriving DecidableEq

/-- Last-write-wins lookup in an insertion-ordered association list: the
observable behaviour of Python dict indexing after a sequence of inserts. -/
def dictGet {α : Type} (l : List (String × α)) (k : String) : Option α :=
  l.foldl (fun acc p => if p.1 = k then some p.2 else acc) none

/-- BASE_UNITS table of the source: symbol, factor to the SI base, dimensions. -/
def BASE_UNITS : List (String × ℚ × Dim) :=
  [ ("m", 1, {L := 1}), ("ft", 0.3048, {L := 1}), ("in", 0.0254, {L := 1}),
    ("g", 0.001, {M := 1}), ("kg", 1, {M := 1}),
    ("lb", 0.453592, {M := 1}), ("lbm", 0.453592, {M := 1}),
    ("s", 1, {T := 1}), ("min", 60, {T := 1}),
    ("hr", 3600, {T := 1}), ("h", 3600, {T := 1}),
    ("K", 1, {Th := 1}),
    ("A", 1, {I := 1}),
    ("mol", 1, {N := 1}), ("gmol", 1, {N := 1}), ("lbmol", 453.59237, {N := 1}),
    ("cd", 1, {Jl := 1}) ]

/-- DERIVED_UNITS table of the source. -/
def DERIVED_UNITS : List (String × ℚ × Dim) :=
  [ ("N", 1, {M := 1, L := 1, T := -2}), ("lbf", 4.44822, {M := 1, L := 1, T := -2}),
    ("Pa", 1, {M := 1, L := -1, T := -2}), ("bar", 1e5, {M := 1, L := -1, T := -2}),
    ("atm", 101325.0, {M := 1, L := -1, T := -2}), ("psi", 6894.76, {M := 1, L := -1, T := -2}),
    ("torr", 133.322, {M := 1, L := -1, T := -2}), ("mmHg", 133.322, {M := 1, L := -1, T := -2}),
    ("J", 1, {M := 1, L := 2, T := -2}), ("cal", 4.184, {M := 1, L := 2, T := -2}),
    ("Btu", 1055.06, {M := 1, L := 2, T := -2}), ("kWh", 3.6e6, {M := 1, L := 2, T := -2}),
    ("W", 1, {M := 1, L := 2, T := -3}), ("hp", 745.7, {M := 1, L := 2, T := -3}),
    ("L", 0.001, {L := 3}), ("gal", 0.00378541, {L := 3}),
    ("cP", 0.001, {M := 1, L := -1, T := -1}), ("P", 0.1, {M := 1, L := -1, T := -1}) ]

/-- The PREFIXES table of the source (SI multipliers, in its insertion
order, including the ASCII alias u for micro). -/
def PFXS : List (String × ℚ) :=
  [ ("Y", 1e24), ("Z", 1e21), ("E", 1e18), ("P", 1e15), ("T", 1e12), ("G", 1e9),
    ("M", 1e6), ("k", 1e3), ("h", 1e2), ("da", 1e1), ("d", 1e-1), ("c", 1e-2),
    ("m", 1e-3), ("mu", 1e-6), ("u", 1e-6), ("n", 1e-9), ("p", 1e-12),
    ("f", 1e-15), ("a", 1e-18), ("z", 1e-21), ("y", 1e-24) ]

/-- TEMPERATURE_UNITS set of the source. -/
def TEMPERATURE_UNITS : List String := ["K", "degC", "degF", "degR"]

/-- The `base_si_units` list that drives prefixed-unit generation. -/
def baseSIUnits : List String :=
  ["m", "g", "s", "A", "mol", "gmol", "cd", "Pa", "J", "W", "N", "L"]

/-- The prefixed entries synthesised by `_build_unit_dictionary`: for every
prefixable base-SI symbol and every SI prefix, an entry prefix+symbol with
factor baseFactor * multiplier and the base symbol's dimensions; the two
`continue` guards of the source are kept (the kg/k one is unreachable). -/
def generatedEntries : List (String × ℚ × Dim) :=
  baseSIUnits.flatMap (fun b =>
    PFXS.filterMap (fun pq =>
      if b = "kg" ∧ pq.1 = "k" then none
      else if b = "gmol" ∧ pq.1 = "k" then none
      else
        match dictGet BASE_UNITS b with
        | some e => some (pq.1 ++ b, e.1 * pq.2, e.2)
        | none =>
          match dictGet DERIVED_UNITS b with
          | some e => some (pq.1 ++ b, e.1 * pq.2, e.2)
          | none => none))

/-- The full unit dictionary built by `_build_unit_dictionary`: base units,
then derived units, then the generated prefixed units, looked up
last-write-wins.  It models `unit_dict` and `dimension_dict` together,
which the source fills in lockstep with the same keys. -/
def unitTable : List (String × ℚ × Dim) :=
  BASE_UNITS ++ DERIVED_UNITS ++ generatedEntries

/-- Python `unit.startswith(prefix)` / `unit[len(prefix):]` walk over the
PREFIXES table of `_get_unit_factor` and `_get_unit_dimensions`: the first
prefix (in table order) that both starts the token and leaves a remainder
present in the unit table, together with its multiplier and that entry. -/
def pfxFind : List (String × ℚ) → String → Option (ℚ × (ℚ × Dim))
  | [], _ => none
  | pq :: rest, u =>
    if pq.1.data.isPrefixOf u.data then
      match dictGet unitTable ⟨u.data.drop pq.1.data.length⟩ with
      | some e => some (pq.2, e)
      | none => pfxFind rest u
    else pfxFind rest u

/-- `_get_unit_factor`: direct table hit, else prefix-stripping, else the
(dead, since kg is in the table) kg fallback, else UnknownUnit. -/
def getUnitFactor (u : String) : Except ConvErr ℚ :=
  match dictGet unitTable u with
  | some e => .ok e.1
  | none =>
    match pfxFind PFXS u with
    | some (pf, e) => .ok (e.1 * pf)
    | none => if u = "kg" then .ok 1 else .error (.unknownUnit u)

/-- `_get_unit_dimensions`: same resolution order as `_get_unit_factor`,
returning the dimension vector of the matched entry (no prefix scaling). -/
def getUnitDims (u : String) : Except ConvErr Dim :=
  match dictGet unitTable u with
  | some e => .ok e.2
  | none =>
    match pfxFind PFXS u with
    | some (_, e) => .ok e.2
    | none => if u = "kg" then .ok ({M := 1} : Dim) else .error (.unknownUnit u)

/-- Python `int()` on a non-empty string of decimal digits. -/
def natOfDigits (l : List Char) : Nat :=
  l.foldl (fun n c => n * 10 + (c.toNat - 48)) 0

/-- The power-suffix detection of `_parse_simple_unit_with_dims`: when the
token ends in a run of decimal digits, that run (read by `int`) is the
power and the rest of the token is the base-unit candidate; otherwise the
power is 1 and the whole token is the candidate. -/
def powerSplit (s : String) : Nat × String :=
  if (s.data.reverse.takeWhile Char.isDigit).isEmpty then (1, s)
  else (natOfDigits (s.data.reverse.takeWhile Char.isDigit).reverse,
    ⟨(s.data.reverse.dropWhile Char.isDigit).reverse⟩)

/-- `_parse_simple_unit_with_dims`: empty or "1" is dimensionless; the four
temperature symbols contribute Θ with a purely multiplicative scale (1 for
K and degC, 5/9 for degF and degR); otherwise a trailing run of decimal
digits is an integer power on the remaining base token, which is resolved
through the unit table. -/
def parseSimpleUnitWithDims (s : String) : Except ConvErr (ℚ × Dim) :=
  if s = "" ∨ s = "1" then .ok (1, {})
  else if s = "K" ∨ s = "degC" then .ok (1, {Th := 1})
  else if s = "degF" ∨ s = "degR" then .ok (5/9, {Th := 1})
  else
    match getUnitFactor (powerSplit s).2 with
    | .error e => .error e
    | .ok baseFactor =>
      match getUnitDims (powerSplit s).2 with
      | .error e => .error e
      | .ok baseDims =>
        .ok (baseFactor ^ (powerSplit s).1, dScale baseDims ((powerSplit s).1 : Int))

/-- Python `s.replace(' ', '')`. -/
def despace (s : String) : String := ⟨s.data.filter (fun c => ¬ c = ' ')⟩

/-- Python `c in s` for a single character. -/
def containsChar (s : String) (c : Char) : Bool := s.data.any (fun x => x == c)

/-- Python `s.split(sep)` for a one-character separator, over char lists. -/
def splitChar (sep : Char) : List Char → List (List Char)
  | [] => [[]]
  | c :: rest =>
    match splitChar sep rest with
    | [] => [[]]
    | g :: gs => if c == sep then [] :: g :: gs else (c :: g) :: gs

/-- Python `s.split(sep)` returning strings. -/
def splitOnChar (s : String) (sep : Char) : List String :=
  (splitChar sep s.data).map (fun l => ⟨l⟩)

/-- Python `s.split(sep, 1)` when sep occurs: the part before the first
separator and everything after it. -/
def breakAtChar (sep : Char) : List Char → Option (List Char × List Char)
  | [] => none
  | c :: rest =>
    if c == sep then some ([], rest)
    else (breakAtChar sep rest).map (fun p => (c :: p.1, p.2))

/-- Python `s.startswith(c)` for one character. -/
def startsWithChar (s : String) (c : Char) : Bool :=
  match s.data with
  | [] => false
  | x :: _ => x == c

/-- Python `s.endswith(c)` for one character. -/
def endsWithChar (s : String) (c : Char) : Bool :=
  match s.data.getLast? with
  | none => false
  | some x => x == c

/-- The `s[1:-1]` stripping of one enclosing parenthesis pair, applied (as
in `_split_unit_expression`) only when the side starts with '(' and ends
with ')'. -/
def stripParens (s : String) : String :=
  if startsWithChar s '(' && endsWithChar s ')' then ⟨(s.data.drop 1).dropLast⟩ else s

/-- Result of `_split_unit_expression`. -/
structure SplitParts where
  numerator : List String
  denominator : List String
deriving DecidableEq

/-- `_split_unit_expression`: remove spaces; with no '/' the whole string is
the numerator; with parentheses present split only at the first '/' and
strip one paren layer from each side; otherwise split at every '/' with all
later parts going to the denominator list. -/
def splitUnitExpression (ue : String) : SplitParts :=
  if ¬ containsChar (despace ue) '/' then ⟨[despace ue], ["1"]⟩
  else if containsChar (despace ue) '(' && containsChar (despace ue) ')' then
    match breakAtChar '/' (despace ue).data with
    | none => ⟨[despace ue], ["1"]⟩ -- unreachable: the despaced string contains '/'
    | some (numL, denL) => ⟨[stripParens ⟨numL⟩], [stripParens ⟨denL⟩]⟩
  else
    match splitOnChar (despace ue) '/' with
    | [] => ⟨[despace ue], ["1"]⟩ -- unreachable: split never returns an empty list
    | n :: ds => ⟨[n], if ds.isEmpty then ["1"] else ds⟩

/-- One pass of the numerator/denominator loops of
`_parse_unit_expression_with_dims` over the '.'-separated tokens of one
part: factors multiply, dimension vectors add. -/
def accumTokens : List String → ℚ × Dim → Except ConvErr (ℚ × Dim)
  | [], acc => .ok acc
  | tok :: rest, acc =>
    match parseSimpleUnitWithDims tok with
    | .error e => .error e
    | .ok (f, d) => accumTokens rest (acc.1 * f, dAdd acc.2 d)

/-- One part of a numerator/denominator list: multi-token via '.' or a
single simple unit. -/
def parsePart (part : String) : Except ConvErr (ℚ × Dim) :=
  if containsChar part '.' then accumTokens (splitOnChar part '.') (1, {})
  else parseSimpleUnitWithDims part

/-- The loop over the parts of one side: factors multiply, dimensions add. -/
def accumParts : List String → ℚ × Dim → Except ConvErr (ℚ × Dim)
  | [], acc => .ok acc
  | part :: rest, acc =>
    match parsePart part with
    | .error e => .error e
    | .ok (f, d) => accumParts rest (acc.1 * f, dAdd acc.2 d)

/-- `_parse_unit_expression_with_dims`: empty, "1" or "dimensionless" is the
neutral pair; an expression without '/' and '.' is one simple unit;
otherwise split, accumulate both sides, and return
(numeratorFactor / denominatorFactor, numeratorDims - denominatorDims). -/
def parseUnitExpressionWithDims (e : String) : Except ConvErr (ℚ × Dim) :=
  if e = "" ∨ e = "1" ∨ e = "dimensionless" then .ok (1, {})
  else if containsChar e '/' = false ∧ containsChar e '.' = false then
    parseSimpleUnitWithDims e
  else
    match accumParts (splitUnitExpression e).numerator (1, {}) with
    | .error er => .error er
    | .ok (nf, nd) =>
      match accumParts (splitUnitExpression e).denominator (1, {}) with
      | .error er => .error er
      | .ok (df, dd) => .ok (nf / df, dSub nd dd)

/-- `_check_dimensional_compatibility`: equal exponents on every axis of the
union of present axes, absent axes counting as 0 (pointwise equality of the
total records). -/
def checkDimensionalCompatibility (a b : Dim) : Bool :=
  a.L == b.L && a.M == b.M && a.T == b.T && a.Th == b.Th &&
    a.N == b.N && a.I == b.I && a.Jl == b.Jl

/-- `_convert_temperature`: affine conversion through the Kelvin pivot, with
UnknownTemperatureUnit on a symbol outside the recognised four. -/
def convertTemperature (value : ℚ) (fromUnit toUnit : String) : Except ConvErr ℚ :=
  match (if fromUnit = "K" then .ok value
    else if fromUnit = "degC" then .ok (value + 273.15)
    else if fromUnit = "degF" then .ok ((value - 32) * (5/9) + 273.15)
    else if fromUnit = "degR" then .ok (value * (5/9))
    else .error (.unknownTemperatureUnit fromUnit) : Except ConvErr ℚ) with
  | .error e => .error e
  | .ok tempK =>
    if toUnit = "K" then .ok tempK
    else if toUnit = "degC" then .ok (tempK - 273.15)
    else if toUnit = "degF" then .ok ((tempK - 273.15) * (9/5) + 32)
    else if toUnit = "degR" then .ok (tempK * (9/5))
    else .error (.unknownTemperatureUnit toUnit)

/-- `convert`: temperature-to-temperature goes through the affine branch;
otherwise both expressions are parsed, dimensional compatibility is
checked, and the value is scaled by fromFactor / toFactor. -/
def convert (value : ℚ) (fromUnit toUnit : String) : Except ConvErr ℚ :=
  if fromUnit ∈ TEMPERATURE_UNITS ∧ toUnit ∈ TEMPERATURE_UNITS then
    convertTemperature value fromUnit toUnit
  else
    match parseUnitExpressionWithDims fromUnit with
    | .error e => .error e
    | .ok (fromFactor, fromDims) =>
      match parseUnitExpressionWithDims toUnit with
      | .error e => .error e
      | .ok (toFactor, toDims) =>
        if checkDimensionalCompatibility fromDims toDims then
          .ok (value * (fromFactor / toFactor))
        else .error (.incompatibleDimensions fromUnit toUnit fromDims toDims)

/- ------------------------------------------------------------------ -/
/- Derived vocabulary used by the claims                               -/
/- ------------------------------------------------------------------ -/

/-- The '.'-separated tokens that the parser resolves inside one
numerator/denominator part. -/
def tokensOfPart (part : String) : List String :=
  if containsChar part '.' then splitOnChar part '.' else [part]

/-- All tokens of a unit expression, in the order the parser resolves
them: none for the neutral forms, the expression itself when it is a
single simple unit, and otherwise the tokens of the numerator parts
followed by those of the denominator parts. -/
def tokensOfExpr (e : String) : List String :=
  if e = "" ∨ e = "1" ∨ e = "dimensionless" then []
  else if containsChar e '/' = false ∧ containsChar e '.' = false then [e]
  else
    ((splitUnitExpression e).numerator.map tokensOfPart).flatten ++
      ((splitUnitExpression e).denominator.map tokensOfPart).flatten

/-- Two dimension vectors differ on some axis (absent axes counting as
exponent 0, so the comparison ranges over the union of present axes). -/
def dimsDiffer (a b : Dim) : Prop :=
  a.L ≠ b.L ∨ a.M ≠ b.M ∨ a.T ≠ b.T ∨ a.Th ≠ b.Th ∨ a.N ≠ b.N ∨ a.I ≠ b.I ∨ a.Jl ≠ b.Jl

/-- The standard affine temperature formulas of the specification, read
towards Kelvin: degC = K - 273.15, degF = (K - 273.15)*9/5 + 32 and
degR = K*9/5 inverted at the value being converted. -/
def specToKelvin (v : ℚ) (u : String) : ℚ :=
  if u = "K" then v
  else if u = "degC" then v + 273.15
  else if u = "degF" then (v - 32) * (5/9) + 273.15
  else if u = "degR" then v * (5/9)
  else v

/-- The standard affine temperature formulas of the specification, read
from Kelvin to the target scale. -/
def specFromKelvin (k : ℚ) (u : String) : ℚ :=
  if u = "K" then k
  else if u = "degC" then k - 273.15
  else if u = "degF" then (k - 273.15) * (9/5) + 32
  else if u = "degR" then k * (9/5)
  else k

/- ------------------------------------------------------------------ -/
/- Helper lemmas                                                       -/
/- ------------------------------------------------------------------ -/

/-- Rewriting the payload of a successful scalar result. -/
lemma exceptOk_val_eq {x y : ℚ} (hx : x = y) :
    (Except.ok x : Except ConvErr ℚ) = .ok y := by rw [hx]

/-- Rewriting the payload of a successful parse result. -/
lemma exceptOk_pair_eq {x y : ℚ} {d e : Dim} (hx : x = y) (hd : d = e) :
    (Except.ok (x, d) : Except ConvErr (ℚ × Dim)) = .ok (y, e) := by rw [hx, hd]

/-- Compatibility is reflexive. -/
lemma checkCompat_self (d : Dim) : checkDimensionalCompatibility d d = true := by
  simp [checkDimensionalCompatibility]

/-- The compatibility check fails exactly when some axis differs. -/
lemma checkCompat_false_iff (a b : Dim) :
    checkDimensionalCompatibility a b = false ↔ dimsDiffer a b := by
  cases a; cases b
  simp [checkDimensionalCompatibility, dimsDiffer]
  tauto

/-- An error coming out of `getUnitFactor` is UnknownUnit with the queried
token. -/
lemma getUnitFactor_error_eq {u : String} {e : ConvErr}
    (h : getUnitFactor u = .error e) : e = .unknownUnit u := by
  unfold getUnitFactor at h
  split at h
  · simp at h
  · split at h
    · simp at h
    · split at h
      · simp at h
      · simpa using h.symm

/-- An error coming out of `getUnitDims` is UnknownUnit with the queried
token. -/
lemma getUnitDims_error_eq {u : String} {e : ConvErr}
    (h : getUnitDims u = .error e) : e = .unknownUnit u := by
  unfold getUnitDims at h
  split at h
  · simp at h
  · split at h
    · simp at h
    · split at h
      · simp at h
      · simpa using h.symm

/-- Every error of the simple-unit resolver is an UnknownUnit error. -/
lemma parseSimple_error_shape {s : String} {e : ConvErr}
    (h : parseSimpleUnitWithDims s = .error e) : ∃ u, e = .unknownUnit u := by
  unfold parseSimpleUnitWithDims at h
  split at h
  · simp at h
  · split at h
    · simp at h
    · split at h
      · simp at h
      · split at h
        · rename_i heq
          rw [Except.error.injEq] at h
          exact ⟨_, h ▸ getUnitFactor_error_eq heq⟩
        · split at h
          · rename_i heq
            rw [Except.error.injEq] at h
            exact ⟨_, h ▸ getUnitDims_error_eq heq⟩
          · simp at h

/-- A failing token-accumulation names a failing token of its list. -/
lemma accumTokens_error_mem {toks : List String} {acc : ℚ × Dim} {e : ConvErr}
    (h : accumTokens toks acc = .error e) :
    ∃ tok ∈ toks, parseSimpleUnitWithDims tok = .error e := by
  induction toks generalizing acc with
  | nil => simp [accumTokens] at h
  | cons tok rest ih =>
    rw [accumTokens] at h
    split at h
    · rename_i heq
      cases h
      exact ⟨tok, by simp, heq⟩
    · obtain ⟨tk, htk, hh⟩ := ih h
      exact ⟨tk, by simp [htk], hh⟩

/-- A successful token-accumulation resolves every token of its list. -/
lemma accumTokens_ok_all {toks : List String} {acc : ℚ × Dim} {r : ℚ × Dim}
    (h : accumTokens toks acc = .ok r) :
    ∀ tok ∈ toks, ∃ r2, parseSimpleUnitWithDims tok = .ok r2 := by
  induction toks generalizing acc with
  | nil => simp
  | cons tok rest ih =>
    rw [accumTokens] at h
    split at h
    · simp at h
    · rename_i p heq
      intro tk htk
      rcases List.mem_cons.mp htk with rfl | hmem
      · exact ⟨_, heq⟩
      · exact ih h tk hmem

/-- A failing part names a failing token among its tokens. -/
lemma parsePart_error_mem {part : String} {e : ConvErr}
    (h : parsePart part = .error e) :
    ∃ tok ∈ tokensOfPart part, parseSimpleUnitWithDims tok = .error e := by
  unfold parsePart at h
  unfold tokensOfPart
  split at h
  · rename_i hc
    rw [if_pos hc]
    exact accumTokens_error_mem h
  · rename_i hc
    rw [if_neg hc]
    exact ⟨part, by simp, h⟩

/-- A successful part resolves every one of its tokens. -/
lemma parsePart_ok_all {part : String} {r : ℚ × Dim}
    (h : parsePart part = .ok r) :
    ∀ tok ∈ tokensOfPart part, ∃ r2, parseSimpleUnitWithDims tok = .ok r2 := by
  unfold parsePart at h
  unfold tokensOfPart
  split at h
  · rename_i hc
    rw [if_pos hc]
    exact accumTokens_ok_all h
  · rename_i hc
    rw [if_neg hc]
    intro tok htok
    rcases List.mem_singleton.mp htok with rfl
    exact ⟨r, h⟩

/-- A failing side of the expression names a failing token. -/
lemma accumParts_error_mem {parts : List String} {acc : ℚ × Dim} {e : ConvErr}
    (h : accumParts parts acc = .error e) :
    ∃ tok ∈ (parts.map tokensOfPart).flatten, parseSimpleUnitWithDims tok = .error e := by
  induction parts generalizing acc with
  | nil => simp [accumParts] at h
  | cons part rest ih =>
    rw [accumParts] at h
    split at h
    · rename_i heq
      cases h
      obtain ⟨tok, htok, hh⟩ := parsePart_error_mem heq
      exact ⟨tok, by simp [htok], hh⟩
    · obtain ⟨tok, htok, hh⟩ := ih h
      refine ⟨tok, ?_, hh⟩
      simp only [List.map_cons, List.flatten_cons, List.mem_append]
      right
      simpa using htok

/-- A successful side of the expression resolves every token. -/
lemma accumParts_ok_all {parts : List String} {acc : ℚ × Dim} {r : ℚ × Dim}
    (h : accumParts parts acc = .ok r) :
    ∀ tok ∈ (parts.map tokensOfPart).flatten, ∃ r2, parseSimpleUnitWithDims tok = .ok r2 := by
  induction parts generalizing acc with
  | nil => simp
  | cons part rest ih =>
    rw [accumParts] at h
    split at h
    · simp at h
    · rename_i p heq
      intro tok htok
      simp only [List.map_cons, List.flatten_cons, List.mem_append] at htok
      rcases htok with hmem | hmem
      · exact parsePart_ok_all heq tok hmem
      · exact ih h tok (by simpa using hmem)

/-- A failing expression parse names a failing token of the expression. -/
lemma parseExpr_error_mem {e : String} {err : ConvErr}
    (h : parseUnitExpressionWithDims e = .error err) :
    ∃ tok ∈ tokensOfExpr e, parseSimpleUnitWithDims tok = .error err := by
  unfold parseUnitExpressionWithDims at h
  unfold tokensOfExpr
  split at h
  · simp at h
  · rename_i h1
    rw [if_neg h1]
    split at h
    · rename_i h2
      rw [if_pos h2]
      exact ⟨e, by simp, h⟩
    · rename_i h2
      rw [if_neg h2]
      split at h
      · rename_i heq
        cases h
        obtain ⟨tok, htok, hh⟩ := accumParts_error_mem heq
        exact ⟨tok, List.mem_append_left _ htok, hh⟩
      · rename_i p heq
        split at h
        · rename_i heq2
          cases h
          obtain ⟨tok, htok, hh⟩ := accumParts_error_mem heq2
          exact ⟨tok, List.mem_append_right _ htok, hh⟩
        · simp at h

/-- A successful expression parse resolves every token of the expression. -/
lemma parseExpr_ok_all {e : String} {r : ℚ × Dim}
    (h : parseUnitExpressionWithDims e = .ok r) :
    ∀ tok ∈ tokensOfExpr e, ∃ r2, parseSimpleUnitWithDims tok = .ok r2 := by
  unfold parseUnitExpressionWithDims at h
  unfold tokensOfExpr
  split at h
  · rename_i hg
    rw [if_pos hg]
    simp
  · rename_i h1
    rw [if_neg h1]
    split at h
    · rename_i h2
      rw [if_pos h2]
      intro tok htok
      rcases List.mem_singleton.mp htok with rfl
      exact ⟨r, h⟩
    · rename_i h2
      rw [if_neg h2]
      split at h
      · simp at h
      · rename_i p heq
        split at h
        · simp at h
        · rename_i q heq2
          intro tok htok
          rcases List.mem_append.mp htok with hmem | hmem
          · exact accumParts_ok_all heq tok hmem
          · exact accumParts_ok_all heq2 tok hmem

/-- takeWhile over an all-satisfying left block passes through it. -/
lemma takeWhile_append_of_all {p : Char → Bool} {l1 : List Char} (l2 : List Char)
    (h : ∀ x ∈ l1, p x = true) : (l1 ++ l2).takeWhile p = l1 ++ l2.takeWhile p := by
  induction l1 with
  | nil => simp
  | cons a l ih =>
    have ha : p a = true := h a (by simp)
    simp only [List.cons_append, List.takeWhile_cons, ha, if_true]
    rw [ih (fun x hx => h x (by simp [hx]))]

/-- dropWhile over an all-satisfying left block discards it. -/
lemma dropWhile_append_of_all {p : Char → Bool} {l1 : List Char} (l2 : List Char)
    (h : ∀ x ∈ l1, p x = true) : (l1 ++ l2).dropWhile p = l2.dropWhile p := by
  induction l1 with
  | nil => simp
  | cons a l ih =>
    have ha : p a = true := h a (by simp)
    simp only [List.cons_append, List.dropWhile_cons, ha, if_true]
    exact ih (fun x hx => h x (by simp [hx]))

/-- Appending a non-empty run of digits to a token ending in a non-digit
is split by `powerSplit` into that run (as the power) and the token. -/
lemma powerSplit_append (core : List Char) (c : Char) (hc : c.isDigit = false)
    (ds : List Char) (hds : ds ≠ []) (hdig : ∀ x ∈ ds, x.isDigit = true) :
    powerSplit ⟨core ++ [c] ++ ds⟩ = (natOfDigits ds, ⟨core ++ [c]⟩) := by
  have hrev : (⟨core ++ [c] ++ ds⟩ : String).data.reverse = ds.reverse ++ (c :: core.reverse) := by
    show (core ++ [c] ++ ds).reverse = ds.reverse ++ (c :: core.reverse)
    simp [List.reverse_append]
  have hdigrev : ∀ x ∈ ds.reverse, x.isDigit = true := by
    intro x hx
    exact hdig x (List.mem_reverse.mp hx)
  have htake : (ds.reverse ++ (c :: core.reverse)).takeWhile Char.isDigit = ds.reverse := by
    rw [takeWhile_append_of_all _ hdigrev, List.takeWhile_cons, hc]
    simp
  have hdrop : (ds.reverse ++ (c :: core.reverse)).dropWhile Char.isDigit = c :: core.reverse := by
    rw [dropWhile_append_of_all _ hdigrev, List.dropWhile_cons, hc]
    simp
  have hne : ds.reverse ≠ [] := by simpa using hds
  unfold powerSplit
  rw [hrev, htake, hdrop]
  rw [if_neg (by simpa [List.isEmpty_iff] using hne)]
  simp

/-- Resolving a token that is a non-digit-ending base followed by a digit
run reduces to resolving the base with the run as the power. -/
lemma parseSimple_append_digits (core : List Char) (c : Char) (hc : c.isDigit = false)
    (ds : List Char) (hds : ds ≠ []) (hdig : ∀ x ∈ ds, x.isDigit = true)
    (hK : (⟨core ++ [c] ++ ds⟩ : String) ≠ "K")
    (hdC : (⟨core ++ [c] ++ ds⟩ : String) ≠ "degC")
    (hdF : (⟨core ++ [c] ++ ds⟩ : String) ≠ "degF")
    (hdR : (⟨core ++ [c] ++ ds⟩ : String) ≠ "degR") :
    parseSimpleUnitWithDims ⟨core ++ [c] ++ ds⟩ =
      match getUnitFactor ⟨core ++ [c]⟩ with
      | .error e => .error e
      | .ok bf =>
        match getUnitDims ⟨core ++ [c]⟩ with
        | .error e => .error e
        | .ok bd => .ok (bf ^ natOfDigits ds, dScale bd (natOfDigits ds : Int)) := by
  have hlen : 0 < ds.length := List.length_pos.mpr hds
  have hemp : (⟨core ++ [c] ++ ds⟩ : String) ≠ "" := by
    intro he
    have h1 := congrArg List.length (String.ext_iff.mp he)
    rw [show ("" : String).data = [] from rfl] at h1
    simp at h1
  have hone : (⟨core ++ [c] ++ ds⟩ : String) ≠ "1" := by
    intro he
    have h1 := congrArg List.length (String.ext_iff.mp he)
    rw [show ("1" : String).data = ['1'] from rfl] at h1
    simp at h1
    omega
  unfold parseSimpleUnitWithDims
  rw [if_neg (by push_neg; exact ⟨hemp, hone⟩)]
  rw [if_neg (by push_neg; exact ⟨hK, hdC⟩)]
  rw [if_neg (by push_neg; exact ⟨hdF, hdR⟩)]
  rw [powerSplit_append core c hc ds hds hdig]

/-- A padded token is longer than any string of at most the base length. -/
lemma mk_long_ne (core : List Char) (c : Char) (ds : List Char) (hds : ds ≠ [])
    (t : String) (hlen : t.length ≤ core.length + 1) :
    (⟨core ++ [c] ++ ds⟩ : String) ≠ t := by
  intro he
  have h1 := congrArg List.length (String.ext_iff.mp he)
  have h2 : 0 < ds.length := List.length_pos.mpr hds
  have h3 : t.data.length = t.length := rfl
  rw [h3] at h1
  simp at h1
  omega

/- ------------------------------------------------------------------ -/
/- Claims                                                              -/
/- ------------------------------------------------------------------ -/

/-- C1: for every value v and every pair of unit expressions that are not
both temperature symbols, if both expressions parse successfully and their
dimension vectors are equal, then convert returns v * (fromFactor / toFactor)
and does not raise. -/
theorem unitconv_c1 (v : ℚ) (f t : String) (ff tf : ℚ) (fd td : Dim)
    (hft : ¬(f ∈ TEMPERATURE_UNITS ∧ t ∈ TEMPERATURE_UNITS))
    (hf : parseUnitExpressionWithDims f = .ok (ff, fd))
    (ht : parseUnitExpressionWithDims t = .ok (tf, td))
    (hdims : fd = td) :
    convert v f t = .ok (v * (ff / tf)) := by
  unfold convert
  rw [if_neg hft]
  simp only [hf, ht]
  subst hdims
  simp [checkCompat_self]

/-- Witness for C1 at convert(2, "kW", "W") = 2 * (1000 / 1). -/
theorem unitconv_c1_witness : convert 2 "kW" "W" = .ok (2 * (1000 / 1)) :=
  unitconv_c1 2 "kW" "W" 1000 1 {M := 1, L := 2, T := -3} {M := 1, L := 2, T := -3}
    (by decide)
    (exceptOk_pair_eq (by rw [show (powerSplit "kW").1 = 1 from rfl]; norm_num) rfl)
    (exceptOk_pair_eq (by norm_num) rfl)
    rfl

/-- C2: for non-temperature-pair expressions that both parse, convert
raises IncompatibleDimensions carrying both unit strings and both resolved
dimension vectors exactly when the two vectors differ on some axis (absent
axes counting as exponent 0). -/
theorem unitconv_c2 (v : ℚ) (f t : String) (ff tf : ℚ) (fd td : Dim)
    (hft : ¬(f ∈ TEMPERATURE_UNITS ∧ t ∈ TEMPERATURE_UNITS))
    (hf : parseUnitExpressionWithDims f = .ok (ff, fd))
    (ht : parseUnitExpressionWithDims t = .ok (tf, td)) :
    convert v f t = .error (.incompatibleDimensions f t fd td) ↔ dimsDiffer fd td := by
  unfold convert
  rw [if_neg hft]
  simp only [hf, ht]
  by_cases hc : checkDimensionalCompatibility fd td = true
  · simp [hc, ← checkCompat_false_iff]
  · rw [Bool.not_eq_true] at hc
    simp [hc, ← checkCompat_false_iff]

/-- Witness for C2 at convert(1, "J", "W"): energy against power raises
IncompatibleDimensions with both strings and vectors. -/
theorem unitconv_c2_witness :
    convert 1 "J" "W" =
      .error (.incompatibleDimensions "J" "W" {M := 1, L := 2, T := -2} {M := 1, L := 2, T := -3}) :=
  (unitconv_c2 1 "J" "W" 1 1 {M := 1, L := 2, T := -2} {M := 1, L := 2, T := -3}
    (by decide)
    (exceptOk_pair_eq (by simp +decide [pow_one]; try norm_num) rfl)
    (exceptOk_pair_eq (by simp +decide [pow_one]; try norm_num) rfl)).mpr
    (by simp [dimsDiffer])

/-- C3: when both units are among K, degC, degF, degR, convert performs the
affine conversion through the Kelvin pivot with the standard formulas. -/
theorem unitconv_c3 (v : ℚ) (f t : String)
    (hf : f ∈ TEMPERATURE_UNITS) (ht : t ∈ TEMPERATURE_UNITS) :
    convert v f t = .ok (specFromKelvin (specToKelvin v f) t) := by
  unfold convert
  rw [if_pos ⟨hf, ht⟩]
  simp only [TEMPERATURE_UNITS, List.mem_cons, List.not_mem_nil, or_false] at hf ht
  rcases hf with rfl | rfl | rfl | rfl <;> rcases ht with rfl | rfl | rfl | rfl <;>
    simp [convertTemperature, specToKelvin, specFromKelvin]

/-- Witness for C3: convert(0, "degC", "K") = 273.15 and
convert(32, "degF", "degC") = 0. -/
theorem unitconv_c3_witness :
    convert 0 "degC" "K" = .ok 273.15 ∧ convert 32 "degF" "degC" = .ok 0 :=
  ⟨(unitconv_c3 0 "degC" "K" (by decide) (by decide)).trans
      (exceptOk_val_eq (by simp +decide [specToKelvin, specFromKelvin]; try norm_num)),
   (unitconv_c3 32 "degF" "degC" (by decide) (by decide)).trans
      (exceptOk_val_eq (by simp +decide [specToKelvin, specFromKelvin]; try norm_num))⟩

/-- C4 counterexample: "kg/m/s" has two top-level '/' yet parses
successfully (to mass per length per time), so the claim that more than
one '/' fails with a parse error is false at this input. -/
theorem unitconv_c4_cex :
    parseUnitExpressionWithDims "kg/m/s" = .ok (1, {M := 1, L := -1, T := -1}) :=
  exceptOk_pair_eq (by simp +decide [pow_one]; try norm_num) rfl

/-- C4 amended: an expression with several top-level '/' and no parentheses
does not fail; the part before the first '/' is the numerator and every
later '/'-separated part is one more denominator factor, so "kg/m/s"
parses to the same (factor, dimensions) pair as "kg/(m.s)". -/
theorem unitconv_c4 :
    parseUnitExpressionWithDims "kg/m/s" = .ok (1, {M := 1, L := -1, T := -1}) ∧
    parseUnitExpressionWithDims "kg/(m.s)" = .ok (1, {M := 1, L := -1, T := -1}) :=
  ⟨exceptOk_pair_eq (by simp +decide [pow_one]; try norm_num) rfl,
   exceptOk_pair_eq (by simp +decide [pow_one]; try norm_num) rfl⟩

/-- C5: if any token of either expression fails to resolve, convert (on a
non-temperature pair) raises UnknownUnit carrying the token reported by a
failing token's resolution. -/
theorem unitconv_c5 (v : ℚ) (f t : String)
    (hft : ¬(f ∈ TEMPERATURE_UNITS ∧ t ∈ TEMPERATURE_UNITS))
    (tok : String) (hmem : tok ∈ tokensOfExpr f ++ tokensOfExpr t)
    (e0 : ConvErr) (hfail : parseSimpleUnitWithDims tok = .error e0) :
    ∃ u tok2, tok2 ∈ tokensOfExpr f ++ tokensOfExpr t ∧
      parseSimpleUnitWithDims tok2 = .error (.unknownUnit u) ∧
      convert v f t = .error (.unknownUnit u) := by
  unfold convert
  rw [if_neg hft]
  cases hpf : parseUnitExpressionWithDims f with
  | error err =>
    obtain ⟨tok2, htok2, hh⟩ := parseExpr_error_mem hpf
    obtain ⟨u, rfl⟩ := parseSimple_error_shape hh
    exact ⟨u, tok2, List.mem_append_left _ htok2, hh, by simp [hpf]⟩
  | ok rf =>
    cases hpt : parseUnitExpressionWithDims t with
    | error err =>
      obtain ⟨tok2, htok2, hh⟩ := parseExpr_error_mem hpt
      obtain ⟨u, rfl⟩ := parseSimple_error_shape hh
      refine ⟨u, tok2, List.mem_append_right _ htok2, hh, ?_⟩
      obtain ⟨rf1, rf2⟩ := rf
      simp [hpf, hpt]
    | ok rt =>
      exfalso
      rcases List.mem_append.mp hmem with hmem2 | hmem2
      · obtain ⟨r2, hr2⟩ := parseExpr_ok_all hpf tok hmem2
        rw [hr2] at hfail
        simp at hfail
      · obtain ⟨r2, hr2⟩ := parseExpr_ok_all hpt tok hmem2
        rw [hr2] at hfail
        simp at hfail

/-- Witness for C5 at convert(1, "xyz", "m"): the unresolvable token "xyz"
makes convert fail with UnknownUnit "xyz". -/
theorem unitconv_c5_witness :
    ∃ u tok2, tok2 ∈ tokensOfExpr "xyz" ++ tokensOfExpr "m" ∧
      parseSimpleUnitWithDims tok2 = .error (.unknownUnit u) ∧
      convert 1 "xyz" "m" = .error (.unknownUnit u) :=
  unitconv_c5 1 "xyz" "m" (by decide) "xyz" (by decide) (.unknownUnit "xyz") rfl

/-- C6: as a token, each of the four temperature symbols contributes the
dimension vector {Temperature: 1} and a purely multiplicative scale factor:
exactly 1 for K and degC and exactly 5/9 for degF and degR, never an affine
offset. -/
theorem unitconv_c6 :
    parseSimpleUnitWithDims "K" = .ok (1, {Th := 1}) ∧
    parseSimpleUnitWithDims "degC" = .ok (1, {Th := 1}) ∧
    parseSimpleUnitWithDims "degF" = .ok (5/9, {Th := 1}) ∧
    parseSimpleUnitWithDims "degR" = .ok (5/9, {Th := 1}) ∧
    (∃ f, parseUnitExpressionWithDims "Btu/(h.ft2.degF)" =
        .ok (f, {M := 1, T := -3, Th := -1}) ∧
      f = 1055.06 / (3600 * (0.3048 ^ 2) * (5/9))) :=
  ⟨rfl, rfl, rfl, rfl, _, exceptOk_pair_eq rfl rfl, by
    rw [show (powerSplit (stripParens ⟨['B', 't', 'u']⟩)).1 = 1 from rfl,
      show (powerSplit ⟨['h']⟩).1 = 1 from rfl,
      show (powerSplit ⟨['f', 't', '2']⟩).1 = 2 from rfl]
    norm_num⟩

/-- C7 counterexample: the bare parenthesized group "(m2.K)" does not parse
to the same pair as "m2.K"; it fails with UnknownUnit "(m". -/
theorem unitconv_c7_cex :
    parseUnitExpressionWithDims "(m2.K)" ≠ parseUnitExpressionWithDims "m2.K" := by
  have h1 : parseUnitExpressionWithDims "(m2.K)" = .error (.unknownUnit "(m") := rfl
  obtain ⟨r, h2⟩ : ∃ r, parseUnitExpressionWithDims "m2.K" = .ok r := ⟨_, rfl⟩
  rw [h1, h2]
  simp

/-- C7 amended: parentheses are stripped only from the numerator or the
denominator of an expression that contains a top-level '/'; there
"W/(m2.K)" parses exactly like "W/m2.K", while a bare parenthesized group
with no '/', such as "(m2.K)", is not stripped and fails with
UnknownUnit "(m". -/
theorem unitconv_c7 :
    parseUnitExpressionWithDims "W/(m2.K)" = parseUnitExpressionWithDims "W/m2.K" ∧
    (∃ f, parseUnitExpressionWithDims "W/(m2.K)" = .ok (f, {M := 1, T := -3, Th := -1}) ∧
      f = 1) ∧
    parseUnitExpressionWithDims "(m2.K)" = .error (.unknownUnit "(m") :=
  ⟨rfl, ⟨_, exceptOk_pair_eq rfl rfl, by norm_num⟩, rfl⟩

/-- C9: the unit table has no entry keyed "kgmol" (the k+gmol combination
is skipped during generation), yet the resolver's prefix-stripping
fallback resolves the token as k + gmol, so convert(1, "kgmol", "gmol")
succeeds and returns 1000. -/
theorem unitconv_c9 :
    dictGet unitTable "kgmol" = none ∧
    (∃ fac, getUnitFactor "kgmol" = .ok fac ∧ fac = 1000) ∧
    convert 1 "kgmol" "gmol" = .ok 1000 :=
  ⟨rfl, ⟨_, rfl, by norm_num⟩,
   exceptOk_val_eq (by rw [show (powerSplit "kgmol").1 = 1 from rfl]; norm_num)⟩

/-- C10: appending a decimal power suffix to degC, degF or degR yields a
token whose resolution raises UnknownUnit carrying the bare symbol (these
symbols live only in the temperature branch and have no table entry),
while K with a power suffix resolves, since K has a table entry. -/
theorem unitconv_c10 (ds : List Char) (hds : ds ≠ [])
    (hdig : ∀ c ∈ ds, c.isDigit = true) :
    parseSimpleUnitWithDims ⟨"degC".data ++ ds⟩ = .error (.unknownUnit "degC") ∧
    parseSimpleUnitWithDims ⟨"degF".data ++ ds⟩ = .error (.unknownUnit "degF") ∧
    parseSimpleUnitWithDims ⟨"degR".data ++ ds⟩ = .error (.unknownUnit "degR") ∧
    parseSimpleUnitWithDims ⟨"K".data ++ ds⟩ = .ok (1, {Th := (natOfDigits ds : Int)}) := by
  refine ⟨?_, ?_, ?_, ?_⟩
  · show parseSimpleUnitWithDims ⟨['d', 'e', 'g'] ++ ['C'] ++ ds⟩ = .error (.unknownUnit "degC")
    rw [parseSimple_append_digits ['d', 'e', 'g'] 'C' (by decide) ds hds hdig
      (mk_long_ne _ _ _ hds _ (by decide)) (mk_long_ne _ _ _ hds _ (by decide))
      (mk_long_ne _ _ _ hds _ (by decide)) (mk_long_ne _ _ _ hds _ (by decide))]
    rfl
  · show parseSimpleUnitWithDims ⟨['d', 'e', 'g'] ++ ['F'] ++ ds⟩ = .error (.unknownUnit "degF")
    rw [parseSimple_append_digits ['d', 'e', 'g'] 'F' (by decide) ds hds hdig
      (mk_long_ne _ _ _ hds _ (by decide)) (mk_long_ne _ _ _ hds _ (by decide))
      (mk_long_ne _ _ _ hds _ (by decide)) (mk_long_ne _ _ _ hds _ (by decide))]
    rfl
  · show parseSimpleUnitWithDims ⟨['d', 'e', 'g'] ++ ['R'] ++ ds⟩ = .error (.unknownUnit "degR")
    rw [parseSimple_append_digits ['d', 'e', 'g'] 'R' (by decide) ds hds hdig
      (mk_long_ne _ _ _ hds _ (by decide)) (mk_long_ne _ _ _ hds _ (by decide))
      (mk_long_ne _ _ _ hds _ (by decide)) (mk_long_ne _ _ _ hds _ (by decide))]
    rfl
  · show parseSimpleUnitWithDims ⟨[] ++ ['K'] ++ ds⟩ = .ok (1, {Th := (natOfDigits ds : Int)})
    have hKne : (⟨[] ++ ['K'] ++ ds⟩ : String) ≠ "K" := by
      intro he
      have h2 := String.ext_iff.mp he
      simp at h2
      exact hds h2
    have hCne : (⟨[] ++ ['K'] ++ ds⟩ : String) ≠ "degC" := by
      intro he
      have h2 := String.ext_iff.mp he
      rw [show ("degC" : String).data = ['d', 'e', 'g', 'C'] from rfl] at h2
      simp at h2
    have hFne : (⟨[] ++ ['K'] ++ ds⟩ : String) ≠ "degF" := by
      intro he
      have h2 := String.ext_iff.mp he
      rw [show ("degF" : String).data = ['d', 'e', 'g', 'F'] from rfl] at h2
      simp at h2
    have hRne : (⟨[] ++ ['K'] ++ ds⟩ : String) ≠ "degR" := by
      intro he
      have h2 := String.ext_iff.mp he
      rw [show ("degR" : String).data = ['d', 'e', 'g', 'R'] from rfl] at h2
      simp at h2
    rw [parseSimple_append_digits [] 'K' (by decide) ds hds hdig hKne hCne hFne hRne]
    simp only [show getUnitFactor ⟨[] ++ ['K']⟩ = .ok 1 from rfl,
      show getUnitDims ⟨[] ++ ['K']⟩ = .ok ({Th := 1} : Dim) from rfl, one_pow]
    rw [show dScale {Th := 1} (natOfDigits ds : Int) = ({Th := (natOfDigits ds : Int)} : Dim) by
      simp [dScale]]

/-- Witness for C10 with the suffix "2": "degF2" fails with
UnknownUnit "degF" while "K2" resolves to (1, {Temperature: 2}). -/
theorem unitconv_c10_witness :
    (['2'] ≠ ([] : List Char)) ∧
    parseSimpleUnitWithDims ⟨"degF".data ++ ['2']⟩ = .error (.unknownUnit "degF") ∧
    parseSimpleUnitWithDims ⟨"K".data ++ ['2']⟩ = .ok (1, {Th := 2}) :=
  ⟨by decide, (unitconv_c10 ['2'] (by decide) (by decide)).2.1,
   (unitconv_c10 ['2'] (by decide) (by decide)).2.2.2⟩

set_option maxHeartbeats 12000000 in
/-- C8: for every prefixable base-SI symbol b and every SI prefix p with
multiplier m, convert(1, p+b, b) returns exactly m (exact-rational form of
the within-tolerance claim). -/
theorem unitconv_c8 : ∀ p ∈ PFXS, ∀ b ∈ baseSIUnits, convert 1 (p.1 ++ b) b = .ok p.2 := by
  intro p hp b hb
  fin_cases hp <;> fin_cases hb <;>
    exact exceptOk_val_eq (by simp +decide [pow_one, powerSplit]; try norm_num)

/-- Witness for C8 at the kilo prefix on the metre: convert(1, "km", "m")
returns 1000. -/
theorem unitconv_c8_witness : convert 1 ("k" ++ "m") "m" = .ok ((1e3 : ℚ)) :=
  unitconv_c8 ("k", 1e3) (by simp [PFXS]) "m" (by decide)
